import Mathlib

/-!
# Juno: contract-state services and the remote chain client

A shallow embedding of

* `internal/log/log.go`            (`NameSlot`, the default logger),
* `internal/services/abi.go`       (`abiService`: `Run`, `Close`, `StoreABI`, `GetABI`),
* `internal/services/state.go`     (`stateService`: `Run`, `Close`, `StoreCode`, `GetCode`,
                                    `StoreStorage`, `GetStorage`, `UpdateStorage`),
* `pkg/rpc/client.go`              (`Client`: the four remote queries and `execute`).

A Go method with a pointer receiver becomes a function from the receiver's value to a
`Call`: the receiver after the call, the events the call emitted (log lines, databases
opened) and the way the call ended (`returned`, `panicked`, `blocked`).  A nil pointer
is `none`, and a method called through a nil logger or manager panics.  Block numbers
(`uint64`) are natural numbers: they are only used as keys, no arithmetic is done on
them.  The packages `pkg/db`, `pkg/db/abi` and `pkg/db/state` are not part of the
sources at hand; their managers are modelled from the specification and marked so.
Interleavings of concurrent calls on one service are the step machine `drain`.
-/

namespace Juno

/-! ## Run-time model -/

/-- How a Go call ends: it returns a value, it panics (here always a nil-pointer
dereference), or it never gets past `sync.WaitGroup.Wait` because the counter is not
zero and no other goroutine is there to decrement it. -/
inductive Outcome (α : Type) where
  | returned : α → Outcome α
  | panicked : Outcome α
  | blocked : Outcome α
deriving DecidableEq, Repr

/-- Levels of the log lines the services write. -/
inductive Level where
  | debug
  | info
  | warn
deriving DecidableEq, Repr

/-- What a call does to the world outside the receiver. -/
inductive Event where
  | log (name : String) (level : Level) (fields : List (String × String)) (msg : String)
  | openDb (path : String)
deriving DecidableEq, Repr

/-- The result of running a method on a receiver of type `σ`. -/
structure Call (σ α : Type) where
  svc : σ
  events : List Event
  ret : Outcome α

/-! ## `internal/log` -/

namespace log

/-- A named `*zap.SugaredLogger` together with the fields added by `With`. -/
structure Logger where
  name : String
  fields : List (String × String)
deriving DecidableEq, Repr

/-- `log.Default`: the development logger created by `init`, without a name. -/
def Default : Logger := ⟨"", []⟩

/-- `NameSlot`: `fmt.Sprintf("%-20s", name)`, the name padded with blanks on the right
to a width of twenty characters. -/
def NameSlot (name : String) : String :=
  name ++ String.mk (List.replicate (20 - name.length) ' ')

/-- `(*zap.SugaredLogger).Named`: an empty segment keeps the logger, otherwise the
segment is appended to the name, separated by a period. -/
def Logger.Named (l : Logger) (s : String) : Logger :=
  if s = "" then l
  else if l.name = "" then { l with name := s }
  else { l with name := l.name ++ "." ++ s }

/-- `(*zap.SugaredLogger).With`: a child logger carrying the extra fields. -/
def Logger.With (l : Logger) (fields : List (String × String)) : Logger :=
  { l with fields := l.fields ++ fields }

/-- The line written by `Debug`. -/
def Logger.Debug (l : Logger) (msg : String) : Event := .log l.name .debug l.fields msg

/-- The line written by `Info`. -/
def Logger.Info (l : Logger) (msg : String) : Event := .log l.name .info l.fields msg

/-- The line written by `Warn`. -/
def Logger.Warn (l : Logger) (msg : String) : Event := .log l.name .warn l.fields msg

end log

/-! ## `internal/config` -/

namespace config

/-- The part of `config.Runtime` the services read. -/
structure Runtime where
  DbPath : String
deriving DecidableEq, Repr

end config

/-! ## `pkg/db/abi` and `pkg/db/state` (modelled from the specification) -/

namespace abi

/-- Modelled from the spec: `abi.Abi`, declared in `pkg/db/abi`, is the ABI definition of
a contract, a blob the services never look into. -/
structure Abi where
  definition : String
deriving DecidableEq, Repr

/-- Modelled from the spec: `abi.Manager` (package `pkg/db/abi`) over its key-value
database: one record per contract address, keyed by the raw address. -/
structure Manager where
  records : Finmap (fun _ : String => Abi)
deriving DecidableEq

/-- Modelled from the spec: `Manager.PutABI` unconditionally overwrites the record of the
address. -/
def Manager.PutABI (m : Manager) (contractAddress : String) (abi : Abi) : Manager :=
  ⟨m.records.insert contractAddress abi⟩

/-- Modelled from the spec: `Manager.GetABI` returns the stored record, or nil when the
address was never written. -/
def Manager.GetABI (m : Manager) (contractAddress : String) : Option Abi :=
  m.records.lookup contractAddress

end abi

namespace state

/-- Modelled from the spec: `state.ContractCode` (package `pkg/db/state`), the deployed
bytecode of a contract. -/
structure ContractCode where
  Code : List UInt8
deriving DecidableEq, Repr

/-- Modelled from the spec: `state.ContractStorage` (package `pkg/db/state`), a mapping of
storage-slot key to value. -/
structure ContractStorage where
  Storage : Finmap (fun _ : String => String)
deriving DecidableEq

/-- Modelled from the spec: `ContractStorage.Update` merges the given storage into the
receiver: its entries overwrite matching keys, the keys of both are kept. -/
def ContractStorage.Update (x other : ContractStorage) : ContractStorage :=
  ⟨other.Storage ∪ x.Storage⟩

/-- Modelled from the spec: `state.Manager` (package `pkg/db/state`) over its two
databases: bytecode keyed by the raw address, and storage snapshots keyed by the pair of
address and block number, at most one snapshot per key. -/
structure Manager where
  code : Finmap (fun _ : String => ContractCode)
  storage : Finmap (fun _ : String × Nat => ContractStorage)
deriving DecidableEq

/-- Modelled from the spec: `Manager.PutCode` overwrites the bytecode of the address. -/
def Manager.PutCode (m : Manager) (contractAddress : String) (code : ContractCode) : Manager :=
  { m with code := m.code.insert contractAddress code }

/-- Modelled from the spec: `Manager.GetCode` returns the stored bytecode, or nil. -/
def Manager.GetCode (m : Manager) (contractAddress : String) : Option ContractCode :=
  m.code.lookup contractAddress

/-- Modelled from the spec: `Manager.PutStorage` overwrites the snapshot stored at exactly
that address and block number; nothing is merged. -/
def Manager.PutStorage (m : Manager) (contractAddress : String) (blockNumber : Nat)
    (storage : ContractStorage) : Manager :=
  { m with storage := m.storage.insert (contractAddress, blockNumber) storage }

/-- Modelled from the spec: `Manager.GetStorage` returns the snapshot stored at that
address and block number, or nil when there is none. -/
def Manager.GetStorage (m : Manager) (contractAddress : String) (blockNumber : Nat) :
    Option ContractStorage :=
  m.storage.lookup (contractAddress, blockNumber)

end state

/-- Modelled from the spec: `db.NewKeyValueDb` and `db.NewBlockSpecificDatabase` (package
`pkg/db`) open the store kept at a path; the environment tells what the managers built
over the stores at a path hold, and carries the run-time configuration. -/
structure Env where
  Runtime : config.Runtime
  NewABIManager : String → abi.Manager
  NewStateManager : String → String → state.Manager

/-! ## `internal/services/abi.go` -/

/-- The struct `abiService`; a nil pointer field is `none`, the wait group is its
counter. -/
structure abiService where
  running : Bool
  manager : Option abi.Manager
  logger : Option log.Logger
  wg : Nat
deriving DecidableEq

namespace abiService

/-- The zero value, which the package variable `ABIService` holds before `Run`. -/
def zero : abiService := ⟨false, none, none, 0⟩

/-- `wg.Add(1)`. -/
def wgAdd (service : abiService) : abiService := { service with wg := service.wg + 1 }

/-- `wg.Done()`, run as a deferred call when the method body ends, also by a panic. -/
def wgDone {α : Type} (c : Call abiService α) : Call abiService α :=
  { c with svc := { c.svc with wg := c.svc.wg - 1 } }

/-- `Run` starts the service; the error it returns is nil on both paths, here `()`. -/
def Run (env : Env) (service : abiService) : Call abiService Unit :=
  if service.running then
    match service.logger with
    | none => ⟨service, [], .panicked⟩
    | some logger => ⟨service, [logger.Warn "Service is already running"], .returned ()⟩
  else
    let path := env.Runtime.DbPath ++ "/abi"
    let service := { service with manager := some (env.NewABIManager path) }
    let logger := log.Default.Named (log.NameSlot "ABI service")
    let service := { service with logger := some logger }
    let service := { service with running := true }
    ⟨service, [.openDb path, logger.Info "service started"], .returned ()⟩

/-- `Close` closes the service. -/
def Close (service : abiService) : Call abiService Unit :=
  if !service.running then
    match service.logger with
    | none => ⟨service, [], .panicked⟩
    | some logger => ⟨service, [logger.Warn "Service is not running"], .returned ()⟩
  else
    match service.logger with
    | none => ⟨service, [], .panicked⟩
    | some logger =>
      let service := { service with running := false }
      let events := [logger.Info "Closing service...",
        logger.Info "Waiting to finish current requests..."]
      if service.wg = 0 then ⟨service, events ++ [logger.Info "Closed"], .returned ()⟩
      else ⟨service, events, .blocked⟩

/-- `StoreABI` stores the ABI in the database. -/
def StoreABI (service : abiService) (contractAddress : String) (abi : abi.Abi) :
    Call abiService Unit :=
  let service := service.wgAdd
  wgDone <|
    match service.logger with
    | none => ⟨service, [], .panicked⟩
    | some logger =>
      let events := [(logger.With [("Contract address", contractAddress)]).Debug "StoreABI"]
      match service.manager with
      | none => ⟨service, events, .panicked⟩
      | some manager =>
        ⟨{ service with manager := some (manager.PutABI contractAddress abi) }, events,
          .returned ()⟩

/-- `GetABI` searches for the ABI associated with the given contract address. -/
def GetABI (service : abiService) (contractAddress : String) :
    Call abiService (Option abi.Abi) :=
  let service := service.wgAdd
  wgDone <|
    match service.logger with
    | none => ⟨service, [], .panicked⟩
    | some logger =>
      let events := [(logger.With [("Contract address", contractAddress)]).Debug "GetABI"]
      match service.manager with
      | none => ⟨service, events, .panicked⟩
      | some manager => ⟨service, events, .returned (manager.GetABI contractAddress)⟩

/-- What holds of the fields in every state the exported methods can leave: the logger
and the manager are set together (by the first `Run`), and a running service has both. -/
def Inv (service : abiService) : Prop :=
  (service.running = true → service.logger.isSome = true) ∧
  (service.manager.isSome = service.logger.isSome)

instance (service : abiService) : Decidable service.Inv := by
  unfold Inv; infer_instance

/-- The same call result, with the `running` field of the receiver cleared. -/
def stopped {α : Type} (c : Call abiService α) : Call abiService α :=
  { c with svc := { c.svc with running := false } }

end abiService

/-! ## `internal/services/state.go` -/

/-- The struct `stateService`. -/
structure stateService where
  running : Bool
  manager : Option state.Manager
  logger : Option log.Logger
  wg : Nat
deriving DecidableEq

namespace stateService

/-- The zero value, which the package variable `StateService` holds before `Run`. -/
def zero : stateService := ⟨false, none, none, 0⟩

/-- `wg.Add(1)`. -/
def wgAdd (service : stateService) : stateService := { service with wg := service.wg + 1 }

/-- `wg.Done()`, run as a deferred call when the method body ends, also by a panic. -/
def wgDone {α : Type} (c : Call stateService α) : Call stateService α :=
  { c with svc := { c.svc with wg := c.svc.wg - 1 } }

/-- The field pair `"Contract address", contractAddress`. -/
def addressField (contractAddress : String) : List (String × String) :=
  [("Contract address", contractAddress)]

/-- The fields `"Contract address", contractAddress, "Block number", blockNumber`. -/
def blockFields (contractAddress : String) (blockNumber : Nat) : List (String × String) :=
  [("Contract address", contractAddress), ("Block number", toString blockNumber)]

/-- `Run` starts the service; the error it returns is nil on both paths, here `()`. -/
def Run (env : Env) (service : stateService) : Call stateService Unit :=
  let logger := log.Default.Named (log.NameSlot "State service")
  let service := { service with logger := some logger }
  if service.running then
    ⟨service, [logger.Warn "Service is already running"], .returned ()⟩
  else
    let codePath := env.Runtime.DbPath ++ "/code"
    let storagePath := env.Runtime.DbPath ++ "/storage"
    let service := { service with manager := some (env.NewStateManager codePath storagePath) }
    let service := { service with running := true }
    ⟨service, [.openDb codePath, .openDb storagePath, logger.Info "Service running"],
      .returned ()⟩

/-- `Close` closes the service. -/
def Close (service : stateService) : Call stateService Unit :=
  if !service.running then
    match service.logger with
    | none => ⟨service, [], .panicked⟩
    | some logger => ⟨service, [logger.Warn "Service is not running"], .returned ()⟩
  else
    match service.logger with
    | none => ⟨service, [], .panicked⟩
    | some logger =>
      let service := { service with running := false }
      let events := [logger.Info "Closing service...",
        logger.Info "Waiting to finish current requests..."]
      if service.wg = 0 then ⟨service, events ++ [logger.Info "Closed"], .returned ()⟩
      else ⟨service, events, .blocked⟩

/-- `StoreCode` stores the contract code. -/
def StoreCode (service : stateService) (contractAddress : String) (code : state.ContractCode) :
    Call stateService Unit :=
  let service := service.wgAdd
  wgDone <|
    match service.logger with
    | none => ⟨service, [], .panicked⟩
    | some logger =>
      let events := [(logger.With (addressField contractAddress)).Debug "StoreCode"]
      match service.manager with
      | none => ⟨service, events, .panicked⟩
      | some manager =>
        ⟨{ service with manager := some (manager.PutCode contractAddress code) }, events,
          .returned ()⟩

/-- `GetCode` searches the contract code for the given contract address. -/
def GetCode (service : stateService) (contractAddress : String) :
    Call stateService (Option state.ContractCode) :=
  let service := service.wgAdd
  wgDone <|
    match service.logger with
    | none => ⟨service, [], .panicked⟩
    | some logger =>
      let events := [(logger.With (addressField contractAddress)).Debug "GetCode"]
      match service.manager with
      | none => ⟨service, events, .panicked⟩
      | some manager =>
        let code := manager.GetCode contractAddress
        ⟨service, events, .returned code⟩

/-- `StoreStorage` stores the contract storage at the given block. -/
def StoreStorage (service : stateService) (contractAddress : String) (blockNumber : Nat)
    (storage : state.ContractStorage) : Call stateService Unit :=
  let service := service.wgAdd
  wgDone <|
    match service.logger with
    | none => ⟨service, [], .panicked⟩
    | some logger =>
      let events :=
        [(logger.With (blockFields contractAddress blockNumber)).Debug "StoreStorage"]
      match service.manager with
      | none => ⟨service, events, .panicked⟩
      | some manager =>
        ⟨{ service with manager := some (manager.PutStorage contractAddress blockNumber storage) },
          events, .returned ()⟩

/-- `GetStorage` searches the contract storage for the given contract address and block
number. -/
def GetStorage (service : stateService) (contractAddress : String) (blockNumber : Nat) :
    Call stateService (Option state.ContractStorage) :=
  let service := service.wgAdd
  wgDone <|
    match service.logger with
    | none => ⟨service, [], .panicked⟩
    | some logger =>
      let events :=
        [(logger.With (blockFields contractAddress blockNumber)).Debug "GetStorage"]
      match service.manager with
      | none => ⟨service, events, .panicked⟩
      | some manager =>
        let storage := manager.GetStorage contractAddress blockNumber
        ⟨service, events, .returned storage⟩

/-- `UpdateStorage` updates the storage for the given contract address at the given block
number. -/
def UpdateStorage (service : stateService) (contractAddress : String) (blockNumber : Nat)
    (storage : state.ContractStorage) : Call stateService Unit :=
  let service := service.wgAdd
  wgDone <|
    match service.logger with
    | none => ⟨service, [], .panicked⟩
    | some logger =>
      let events :=
        [(logger.With (blockFields contractAddress blockNumber)).Debug "UpdateStorage"]
      match service.manager with
      | none => ⟨service, events, .panicked⟩
      | some manager =>
        match manager.GetStorage contractAddress blockNumber with
        | none =>
          ⟨{ service with
              manager := some (manager.PutStorage contractAddress blockNumber storage) },
            events, .returned ()⟩
        | some oldStorage =>
          let oldStorage := oldStorage.Update storage
          ⟨{ service with
              manager := some (manager.PutStorage contractAddress blockNumber oldStorage) },
            events, .returned ()⟩

/-- The snapshot the backing store holds at an address and block number, if there is a
store and it holds one. -/
def stored (service : stateService) (contractAddress : String) (blockNumber : Nat) :
    Option state.ContractStorage :=
  service.manager.bind fun m => m.GetStorage contractAddress blockNumber

/-- What holds of the fields in every state the exported methods can leave: the logger
and the manager are set together (by the first `Run`), and a running service has both. -/
def Inv (service : stateService) : Prop :=
  (service.running = true → service.logger.isSome = true) ∧
  (service.manager.isSome = service.logger.isSome)

instance (service : stateService) : Decidable service.Inv := by
  unfold Inv; infer_instance

/-- The same call result, with the `running` field of the receiver cleared. -/
def stopped {α : Type} (c : Call stateService α) : Call stateService α :=
  { c with svc := { c.svc with running := false } }

end stateService

/-! ## Interleavings of operations and `Close` on one service

Both services guard their operations the same way: every operation starts with
`service.wg.Add(1)` and ends with the deferred `service.wg.Done()`.  `Close` reads
`running`, logs through the logger, clears `running`, calls `service.wg.Wait()`, which
returns only when the counter is zero, logs once more and returns.  The machine below
has one step for each of these points, so that other goroutines can step between any
two of them; it works on the fields `running`, `logger` and `wg`, which the two structs
share. -/

namespace drain

/-- The steps of an interleaving; operations and `Close` invocations carry a number that
tells them apart.  `enter` is `wg.Add(1)`, `exit` is the deferred `wg.Done()`,
`closeInvoke` is the call of `Close` up to its first log line, `closeClear` is
`service.running = false`, `waitReturn` is the return of `wg.Wait()`, `closeReturn` is
the return of `Close`. -/
inductive Label where
  | enter (op : Nat)
  | exit (op : Nat)
  | closeInvoke (c : Nat)
  | closeClear (c : Nat)
  | waitReturn (c : Nat)
  | closeReturn (c : Nat)
deriving DecidableEq, Repr

/-- Where a `Close` invocation that has not returned stands: `leaving` after the warning
of the branch `if !service.running`, `checked` after the first line of the other branch,
`waiting` inside `wg.Wait()`, `waited` after it. -/
inductive Phase where
  | leaving
  | checked
  | waiting
  | waited
deriving DecidableEq, Repr

/-- A `Close` invocation that has not returned yet. -/
structure Pending where
  id : Nat
  phase : Phase
deriving DecidableEq, Repr

/-- The fields `running`, `logger` and `wg` of the service, and the bookkeeping of the
goroutines: the operations in flight, all operations that ever entered, the `Close`
invocations under way, all `Close` invocations ever made and those that panicked. -/
structure State where
  running : Bool
  logger : Option log.Logger
  wg : Nat
  inflight : List Nat
  entered : List Nat
  closes : List Pending
  invoked : List Nat
  panics : List Nat
deriving DecidableEq, Repr

/-- The phase of the pending `Close` invocation with the given number. -/
def State.phase? (s : State) (c : Nat) : Option Phase :=
  (s.closes.find? fun p => p.id = c).map fun p => p.phase

/-- Move the `Close` invocation with the given number to another phase. -/
def State.setPhase (s : State) (c : Nat) (ph : Phase) : State :=
  { s with closes := s.closes.map fun p => if p.id = c then { p with phase := ph } else p }

/-- Take the `Close` invocation with the given number off the pending ones. -/
def State.drop (s : State) (c : Nat) : State :=
  { s with closes := s.closes.filter fun p => p.id ≠ c }

/-- One step; `none` when the step cannot be taken in this state.  A number names one
operation or one `Close` invocation, so it enters or is invoked once. -/
def step (s : State) : Label → Option State
  | .enter op =>
    if op ∈ s.entered then none
    else some { s with wg := s.wg + 1, inflight := op :: s.inflight, entered := op :: s.entered }
  | .exit op =>
    if op ∈ s.inflight then some { s with wg := s.wg - 1, inflight := s.inflight.erase op }
    else none
  | .closeInvoke c =>
    if c ∈ s.invoked then none
    else
      match s.logger with
      | none => some { s with invoked := c :: s.invoked, panics := c :: s.panics }
      | some _ =>
        if !s.running then
          some { s with invoked := c :: s.invoked, closes := ⟨c, .leaving⟩ :: s.closes }
        else
          some { s with invoked := c :: s.invoked, closes := ⟨c, .checked⟩ :: s.closes }
  | .closeClear c =>
    match s.phase? c with
    | some .checked => some (({ s with running := false } : State).setPhase c .waiting)
    | _ => none
  | .waitReturn c =>
    match s.phase? c with
    | some .waiting => if s.wg = 0 then some (s.setPhase c .waited) else none
    | _ => none
  | .closeReturn c =>
    match s.phase? c with
    | some .leaving => some (s.drop c)
    | some .waited => some (s.drop c)
    | _ => none

/-- A whole interleaving, step by step. -/
def run (s : State) : List Label → Option State
  | [] => some s
  | l :: ls => (step s l).bind fun t => run t ls

/-- The bookkeeping fits the fields: the counter is the number of operations in flight,
operations in flight have entered, pending `Close` invocations have been invoked. -/
def State.WF (s : State) : Prop :=
  s.wg = s.inflight.length ∧ (∀ op ∈ s.inflight, op ∈ s.entered) ∧
  ∀ p ∈ s.closes, p.id ∈ s.invoked

instance (s : State) : Decidable s.WF := by
  unfold State.WF; infer_instance

/-- What is known of the `Close` invocation `c` that found the service running while the
operations `B` were in flight: it does not take the branch of a stopped service, and
once its `wg.Wait()` has returned none of `B` is in flight. -/
def State.Safe (s : State) (c : Nat) (B : List Nat) : Prop :=
  c ∈ s.invoked ∧ (∀ op ∈ B, op ∈ s.entered) ∧
  ∀ p ∈ s.closes, p.id = c →
    p.phase ≠ .leaving ∧ (p.phase = .waited → ∀ op ∈ B, op ∉ s.inflight)

/-- The machine state of a service with the given fields and no `Close` under way; the
operations in flight are numbered from zero. -/
def ofService (running : Bool) (logger : Option log.Logger) (wg : Nat) : State :=
  ⟨running, logger, wg, List.range wg, List.range wg, [], [], []⟩

/-- One `Close` invocation run to its end with no other goroutine stepping: how it ends
and the state it leaves. -/
def closeSolo (s : State) (c : Nat) : Outcome Unit × State :=
  match step s (.closeInvoke c) with
  | none => (.blocked, s)
  | some s1 =>
    match s1.phase? c with
    | none => (.panicked, s1)
    | some .leaving =>
      match step s1 (.closeReturn c) with
      | none => (.blocked, s1)
      | some s2 => (.returned (), s2)
    | some _ =>
      match step s1 (.closeClear c) with
      | none => (.blocked, s1)
      | some s2 =>
        match step s2 (.waitReturn c) with
        | none => (.blocked, s2)
        | some s3 =>
          match step s3 (.closeReturn c) with
          | none => (.blocked, s3)
          | some s4 => (.returned (), s4)

/-- A started service with nothing in flight. -/
def started : State := ofService true (some (log.Default.Named (log.NameSlot "ABI service"))) 0

/-- The sample interleaving up to the invocation of `Close` 0: operation 1 is in flight. -/
def atInvoke : State := { started with wg := 1, inflight := [1], entered := [1] }

/-- The sample interleaving right after the invocation of `Close` 0. -/
def afterInvoke : State := { atInvoke with closes := [⟨0, .checked⟩], invoked := [0] }

/-- The sample interleaving when `Close` 0 returns: operation 1 has exited, operation 2
entered after `wg.Wait()` returned and is in flight. -/
def atReturn : State :=
  { started with
    running := false, wg := 1, inflight := [2], entered := [2, 1],
    closes := [⟨0, .waited⟩], invoked := [0] }

end drain

/-! ## `pkg/rpc/client.go` -/

namespace rpc

/-- The types of package `pkg/rpc` that `client.go` uses and does not declare. -/
structure Decl where
  BlockHash : Type
  RequestedScope : Type
  TransactionHash : Type
  BlockResponse : Type
  Transaction : Type
  FunctionCallRest : Type

/-- Modelled from the spec: `FunctionCall` is declared elsewhere in `pkg/rpc`; `client.go`
reads and writes its field `CallData`, a slice of strings (nil is `none`), and the other
fields travel along unchanged. -/
structure FunctionCall (D : Decl) where
  rest : D.FunctionCallRest
  CallData : Option (List String)

/-- The built-in `len` of a slice: a nil slice has length zero. -/
def len {α : Type} : Option (List α) → Nat
  | none => 0
  | some l => l.length

/-- A Go value passed as one of the variadic arguments of a remote call. -/
inductive Arg (D : Decl) where
  | blockHash : D.BlockHash → Arg D
  | requestedScope : D.RequestedScope → Arg D
  | transactionHash : D.TransactionHash → Arg D
  | uint64 : Nat → Arg D
  | functionCall : FunctionCall D → Arg D
  | string : String → Arg D

/-- A remote call as handed to the transport: the method and its parameters in order. -/
structure Request (D : Decl) where
  method : String
  params : List (Arg D)

/-- An `error` value. -/
structure Error where
  msg : String
deriving DecidableEq, Repr

/-- The transport, `*rpc.Client` of go-ethereum, and the decoding of `encoding/json`:
the raw reply of the peer to a request or a transport error, and the decoders of the
result types. -/
structure Transport (D : Decl) where
  reply : Request D → Except Error String
  decodeBlockResponse : String → Except Error D.BlockResponse
  decodeTransaction : String → Except Error D.Transaction
  decodeStrings : String → Except Error (Option (List String))

/-- `CallContext(ctx, &res, method, args...)`: one request, and the reply decoded into
the result. -/
def Transport.CallContext {D : Decl} {α : Type} (t : Transport D)
    (decode : String → Except Error α) (method : String) (args : List (Arg D)) :
    List (Request D) × Except Error α :=
  ([⟨method, args⟩], (t.reply ⟨method, args⟩).bind decode)

/-- The struct `Client`. -/
structure Client (D : Decl) where
  ptr : Transport D

/-- What a method of the client did: the requests it handed to the transport, and how it
ended. -/
structure Exchange (D : Decl) (α : Type) where
  requests : List (Request D)
  ret : Outcome (Except Error α)

/-- `(*big.Int).Uint64`: the low 64 bits of the absolute value. -/
def bigUint64 (x : Int) : Nat := x.natAbs % 2 ^ 64

/-- The number an argument carries when it is an unsigned integer. -/
def Arg.toUint64? {D : Decl} : Arg D → Option Nat
  | .uint64 n => some n
  | _ => none

/-- The call data an argument carries when it is a function call. -/
def Arg.callData? {D : Decl} : Arg D → Option (Option (List String))
  | .functionCall fc => some fc.CallData
  | _ => none

namespace Client

variable {D : Decl}

/-- `GetBlockByHash`. -/
def GetBlockByHash (c : Client D) (blockHash : D.BlockHash)
    (requestedScope : D.RequestedScope) : Exchange D D.BlockResponse :=
  let (reqs, res) := c.ptr.CallContext c.ptr.decodeBlockResponse "starknet_getBlockByHash"
    [.blockHash blockHash, .requestedScope requestedScope]
  match res with
  | .error err => ⟨reqs, .returned (.error err)⟩
  | .ok res => ⟨reqs, .returned (.ok res)⟩

/-- `GetBlockByNumber`; the number is a `*big.Int`, nil being `none`. -/
def GetBlockByNumber (ec : Client D) (number : Option Int)
    (requestedScope : D.RequestedScope) : Exchange D D.BlockResponse :=
  match number with
  | none => ⟨[], .panicked⟩
  | some number =>
    let (reqs, res) := ec.ptr.CallContext ec.ptr.decodeBlockResponse "starknet_getBlockByNumber"
      [.uint64 (bigUint64 number), .requestedScope requestedScope]
    match res with
    | .error err => ⟨reqs, .returned (.error err)⟩
    | .ok res => ⟨reqs, .returned (.ok res)⟩

/-- `GetTransactionByHash`. -/
def GetTransactionByHash (ec : Client D) (hash : D.TransactionHash) :
    Exchange D D.Transaction :=
  let (reqs, res) := ec.ptr.CallContext ec.ptr.decodeTransaction "starknet_getTransactionByHash"
    [.transactionHash hash]
  match res with
  | .error err => ⟨reqs, .returned (.error err)⟩
  | .ok res => ⟨reqs, .returned (.ok res)⟩

/-- `execute`: the raw reply is fetched first and decoded afterwards. -/
def execute {α : Type} (ec : Client D) (method : String) (decode : String → Except Error α)
    (args : List (Arg D)) : List (Request D) × Except Error α :=
  let (reqs, raw) := ec.ptr.CallContext (fun r => .ok r) method args
  match raw with
  | .error err => (reqs, .error err)
  | .ok raw =>
    match decode raw with
    | .error err => (reqs, .error err)
    | .ok data => (reqs, .ok data)

/-- `Call`. -/
def Call (ec : Client D) (hash : String) (call : FunctionCall D) :
    Exchange D (Option (List String)) :=
  let call := if len call.CallData = 0 then { call with CallData := some [] } else call
  match ec.execute "starknet_call" ec.ptr.decodeStrings [.functionCall call, .string hash] with
  | (reqs, .error err) => ⟨reqs, .returned (.error err)⟩
  | (reqs, .ok res) => ⟨reqs, .returned (.ok res)⟩

end Client

end rpc

/-! ## Sample values -/

namespace sample

/-- An environment with empty stores under `/db`. -/
def env : Env := ⟨⟨"/db"⟩, fun _ => ⟨∅⟩, fun _ _ => ⟨∅, ∅⟩⟩

/-- A started ABI service. -/
def abiStarted : abiService := (abiService.Run env abiService.zero).svc

/-- A started state service. -/
def stateStarted : stateService := (stateService.Run env stateService.zero).svc

/-- A snapshot with the single slot `k0`. -/
def old : state.ContractStorage := ⟨Finmap.singleton "k0" "v0"⟩

/-- A snapshot with the slots `k0` and `k1`. -/
def s1 : state.ContractStorage := ⟨(Finmap.singleton "k1" "v1").insert "k0" "w0"⟩

/-- A snapshot with the single slot `k1`. -/
def s2 : state.ContractStorage := ⟨Finmap.singleton "k1" "w1"⟩

/-- A snapshot with the single slot `k2`. -/
def s3 : state.ContractStorage := ⟨Finmap.singleton "k2" "v2"⟩

/-- A started state service holding `old` at address `0xa`, block 7. -/
def stateWithOld : stateService := (stateStarted.StoreStorage "0xa" 7 old).svc

/-- An ABI record. -/
def abi1 : abi.Abi := ⟨"[]"⟩

/-- The ABI service after `Run`, a `StoreABI` at `0xa` and `Close`. -/
def abiClosed : Call abiService Unit := (abiStarted.StoreABI "0xa" abi1).svc.Close

/-- The state service after `Run`, a `StoreStorage` at (`0xa`, 7) and `Close`. -/
def stateClosed : Call stateService Unit := stateWithOld.Close

/-- Some bytecode. -/
def code1 : state.ContractCode := ⟨[1, 2, 3]⟩

/-- Concrete wire types: everything is a string. -/
def decl : rpc.Decl := ⟨String, String, String, String, String, String⟩

/-- A client whose peer answers every request with `[]`. -/
def client : rpc.Client decl :=
  ⟨⟨fun _ => .ok "[]", fun r => .ok r, fun r => .ok r, fun _ => .ok (some [])⟩⟩

end sample

/-! ## Invariant of the service fields -/

theorem abiService.abi_Inv_zero : abiService.zero.Inv := by decide

theorem abiService.abi_Inv_Run (env : Env) (s : abiService) (h : s.Inv) : (s.Run env).svc.Inv := by
  obtain ⟨running, manager, logger, wg⟩ := s
  cases running <;> cases logger <;> simp_all [abiService.Inv, abiService.Run]

theorem abiService.abi_Inv_Close (s : abiService) (h : s.Inv) : s.Close.svc.Inv := by
  obtain ⟨running, manager, logger, wg⟩ := s
  cases running <;> cases logger <;> simp_all [abiService.Inv, abiService.Close]
  split <;> simp_all

theorem abiService.Inv_StoreABI (s : abiService) (a : String) (v : abi.Abi) (h : s.Inv) :
    (s.StoreABI a v).svc.Inv := by
  obtain ⟨running, manager, logger, wg⟩ := s
  cases logger <;> cases manager <;>
    simp_all [abiService.Inv, abiService.StoreABI, abiService.wgAdd, abiService.wgDone]

theorem abiService.Inv_GetABI (s : abiService) (a : String) (h : s.Inv) :
    (s.GetABI a).svc.Inv := by
  obtain ⟨running, manager, logger, wg⟩ := s
  cases logger <;> cases manager <;>
    simp_all [abiService.Inv, abiService.GetABI, abiService.wgAdd, abiService.wgDone]

theorem stateService.Inv_zero : stateService.zero.Inv := by decide

theorem stateService.Inv_Run (env : Env) (s : stateService) (h : s.Inv) :
    (s.Run env).svc.Inv := by
  obtain ⟨running, manager, logger, wg⟩ := s
  cases running <;> cases logger <;> simp_all [stateService.Inv, stateService.Run]

theorem stateService.Inv_Close (s : stateService) (h : s.Inv) : s.Close.svc.Inv := by
  obtain ⟨running, manager, logger, wg⟩ := s
  cases running <;> cases logger <;> simp_all [stateService.Inv, stateService.Close]
  split <;> simp_all

theorem stateService.Inv_StoreCode (s : stateService) (a : String) (c : state.ContractCode)
    (h : s.Inv) : (s.StoreCode a c).svc.Inv := by
  obtain ⟨running, manager, logger, wg⟩ := s
  cases logger <;> cases manager <;>
    simp_all [stateService.Inv, stateService.StoreCode, stateService.wgAdd, stateService.wgDone]

theorem stateService.Inv_GetCode (s : stateService) (a : String) (h : s.Inv) :
    (s.GetCode a).svc.Inv := by
  obtain ⟨running, manager, logger, wg⟩ := s
  cases logger <;> cases manager <;>
    simp_all [stateService.Inv, stateService.GetCode, stateService.wgAdd, stateService.wgDone]

theorem stateService.Inv_StoreStorage (s : stateService) (a : String) (b : Nat)
    (st : state.ContractStorage) (h : s.Inv) : (s.StoreStorage a b st).svc.Inv := by
  obtain ⟨running, manager, logger, wg⟩ := s
  cases logger <;> cases manager <;>
    simp_all [stateService.Inv, stateService.StoreStorage, stateService.wgAdd,
      stateService.wgDone]

theorem stateService.Inv_GetStorage (s : stateService) (a : String) (b : Nat) (h : s.Inv) :
    (s.GetStorage a b).svc.Inv := by
  obtain ⟨running, manager, logger, wg⟩ := s
  cases logger <;> cases manager <;>
    simp_all [stateService.Inv, stateService.GetStorage, stateService.wgAdd,
      stateService.wgDone]

theorem stateService.Inv_UpdateStorage (s : stateService) (a : String) (b : Nat)
    (st : state.ContractStorage) (h : s.Inv) : (s.UpdateStorage a b st).svc.Inv := by
  obtain ⟨running, manager, logger, wg⟩ := s
  cases logger <;> cases manager <;>
    simp_all [stateService.Inv, stateService.UpdateStorage, stateService.wgAdd,
      stateService.wgDone]
  split <;> simp_all

/-! ## Storage snapshots: `StoreStorage`, `GetStorage`, `UpdateStorage` -/

/-- A service that holds a snapshot has a manager, and by the invariant a logger. -/
theorem stateService.fields_of_stored {s : stateService} {a : String} {b : Nat}
    {old : state.ContractStorage} (hinv : s.Inv) (hold : s.stored a b = some old) :
    ∃ m l, s.manager = some m ∧ s.logger = some l ∧ m.GetStorage a b = some old := by
  obtain ⟨running, manager, logger, wg⟩ := s
  cases manager with
  | none => simp [stateService.stored] at hold
  | some m =>
    cases logger with
    | none => simp [stateService.Inv] at hinv
    | some l => exact ⟨m, l, rfl, rfl, by simpa [stateService.stored] using hold⟩

/-- A service with a manager has, by the invariant, a logger. -/
theorem stateService.fields_of_manager {s : stateService} (hinv : s.Inv)
    (hm : s.manager.isSome = true) : ∃ m l, s.manager = some m ∧ s.logger = some l := by
  obtain ⟨running, manager, logger, wg⟩ := s
  cases manager with
  | none => simp at hm
  | some m =>
    cases logger with
    | none => simp [stateService.Inv] at hinv
    | some l => exact ⟨m, l, rfl, rfl⟩

/-- What `UpdateStorage` does on a started service: it returns, and the store holds at
the key the old snapshot updated with the new one, or the new one when there was none. -/
theorem stateService.UpdateStorage_started (s : stateService) (a : String) (b : Nat)
    (d : state.ContractStorage) (m : state.Manager) (l : log.Logger)
    (hm : s.manager = some m) (hl : s.logger = some l) :
    (s.UpdateStorage a b d).ret = .returned () ∧
    (s.UpdateStorage a b d).svc =
      { s with manager := some (m.PutStorage a b
          (match m.GetStorage a b with
           | none => d
           | some old => old.Update d)) } := by
  obtain ⟨running, manager, logger, wg⟩ := s
  simp only at hm hl
  subst hm hl
  cases hg : m.GetStorage a b <;>
    simp [stateService.UpdateStorage, stateService.wgAdd, stateService.wgDone, hg]

/-- The snapshot read back at the key just written. -/
theorem state.Manager.GetStorage_PutStorage (m : state.Manager) (a : String) (b : Nat)
    (st : state.ContractStorage) : (m.PutStorage a b st).GetStorage a b = some st := by
  simp [state.Manager.GetStorage, state.Manager.PutStorage, Finmap.lookup_insert]

/-- Writing one key leaves the snapshots at all other keys alone. -/
theorem state.Manager.GetStorage_PutStorage_ne (m : state.Manager) (a a' : String)
    (b b' : Nat) (st : state.ContractStorage) (h : (a', b') ≠ (a, b)) :
    (m.PutStorage a b st).GetStorage a' b' = m.GetStorage a' b' := by
  simp [state.Manager.GetStorage, state.Manager.PutStorage, Finmap.lookup_insert_of_ne _ h]

/-- The entries of a merged snapshot: the update wins, the rest is kept. -/
theorem state.ContractStorage.lookup_Update (x other : state.ContractStorage) (k : String) :
    (x.Update other).Storage.lookup k =
      if k ∈ other.Storage then other.Storage.lookup k else x.Storage.lookup k := by
  unfold state.ContractStorage.Update
  by_cases h : k ∈ other.Storage
  · simp [h, Finmap.lookup_union_left h]
  · simp [h, Finmap.lookup_union_right h]

/-- C1: when a snapshot old is stored at (a,b), UpdateStorage(a,b,d) returns and leaves
at (a,b) a snapshot that maps every slot key k to d[k] when k is a key of d and to old[k]
otherwise; its keys are the keys of both maps; the snapshots at all other keys of the
store are as before. -/
theorem stateService.UpdateStorage_merges (s : stateService) (a : String) (b : Nat)
    (d old : state.ContractStorage) (hinv : s.Inv) (hold : s.stored a b = some old) :
    (s.UpdateStorage a b d).ret = .returned () ∧
    (∃ new, (s.UpdateStorage a b d).svc.stored a b = some new ∧
      (∀ k, new.Storage.lookup k =
        if k ∈ d.Storage then d.Storage.lookup k else old.Storage.lookup k) ∧
      new.Storage.keys = d.Storage.keys ∪ old.Storage.keys) ∧
    (∀ a' b', (a', b') ≠ (a, b) →
      (s.UpdateStorage a b d).svc.stored a' b' = s.stored a' b') := by
  obtain ⟨m, l, hm, hl, hg⟩ := stateService.fields_of_stored hinv hold
  obtain ⟨hret, hsvc⟩ := stateService.UpdateStorage_started s a b d m l hm hl
  rw [hg] at hsvc
  refine ⟨hret, ⟨old.Update d, ?_, ?_, ?_⟩, ?_⟩
  · rw [hsvc]
    simp [stateService.stored, state.Manager.GetStorage_PutStorage]
  · exact fun k => state.ContractStorage.lookup_Update old d k
  · simp [state.ContractStorage.Update, Finmap.keys_union]
  · intro a' b' hne
    rw [hsvc]
    simp [stateService.stored, hm, state.Manager.GetStorage_PutStorage_ne _ _ _ _ _ _ hne]

/-- Witness of C1: the started service holding `old` at (0xa, 7), updated with `s1`. -/
theorem stateService.UpdateStorage_merges_witness :
    sample.stateWithOld.Inv ∧ sample.stateWithOld.stored "0xa" 7 = some sample.old ∧
    (sample.stateWithOld.UpdateStorage "0xa" 7 sample.s1).ret = .returned () :=
  ⟨by decide, by decide,
    (stateService.UpdateStorage_merges sample.stateWithOld "0xa" 7 sample.s1 sample.old
      (by decide) (by decide)).1⟩

/-- C2: when no snapshot is stored at (a,b), UpdateStorage(a,b,d) and StoreStorage(a,b,d)
run from the same state leave the same service state, hence the same store, and end the
same way. -/
theorem stateService.UpdateStorage_absent_eq_StoreStorage (s : stateService) (a : String)
    (b : Nat) (d : state.ContractStorage) (habsent : s.stored a b = none) :
    (s.UpdateStorage a b d).svc = (s.StoreStorage a b d).svc ∧
    (s.UpdateStorage a b d).ret = (s.StoreStorage a b d).ret := by
  obtain ⟨running, manager, logger, wg⟩ := s
  cases logger with
  | none =>
    simp [stateService.UpdateStorage, stateService.StoreStorage, stateService.wgDone,
      stateService.wgAdd]
  | some l =>
    cases manager with
    | none =>
      simp [stateService.UpdateStorage, stateService.StoreStorage, stateService.wgDone,
        stateService.wgAdd]
    | some m =>
      have hg : m.GetStorage a b = none := by simpa [stateService.stored] using habsent
      simp [stateService.UpdateStorage, stateService.StoreStorage, stateService.wgDone,
        stateService.wgAdd, hg]

/-- Witness of C2: the freshly started service holds nothing at (0xa, 7), and there the
update stores the snapshot as it is. -/
theorem stateService.UpdateStorage_absent_eq_StoreStorage_witness :
    sample.stateStarted.stored "0xa" 7 = none ∧
    (sample.stateStarted.UpdateStorage "0xa" 7 sample.s1).svc =
      (sample.stateStarted.StoreStorage "0xa" 7 sample.s1).svc :=
  ⟨by decide,
    (stateService.UpdateStorage_absent_eq_StoreStorage sample.stateStarted "0xa" 7 sample.s1
      (by decide)).1⟩

/-- Counterexample to C3: from a state that holds `old` (slot k0) at (0xa, 7), updating
with `s3` (slot k2) and then with `s2` (slot k1) leaves the slot k0 of `old` in the
snapshot, which is therefore not `s3` merged with `s2`. -/
theorem stateService.UpdateStorage_twice_counterexample :
    ((sample.stateWithOld.UpdateStorage "0xa" 7 sample.s3).svc.UpdateStorage "0xa" 7
        sample.s2).svc.stored "0xa" 7 ≠ some (sample.s3.Update sample.s2) ∧
    (((sample.stateWithOld.UpdateStorage "0xa" 7 sample.s3).svc.UpdateStorage "0xa" 7
        sample.s2).svc.stored "0xa" 7).map (fun st => st.Storage.lookup "k0")
      = some (some "v0") ∧
    (sample.s3.Update sample.s2).Storage.lookup "k0" = none := by
  decide

/-- C3 (amended): on a started service, UpdateStorage(a,b,s1) followed by
UpdateStorage(a,b,s2) both return and leave at (a,b) the snapshot s1 merged with s2 when
nothing was stored there before, and the stored snapshot merged with s1 and then with s2
when there was one; in both merges the later map wins on shared keys. -/
theorem stateService.UpdateStorage_twice (s : stateService) (a : String) (b : Nat)
    (s1 s2 : state.ContractStorage) (hinv : s.Inv) (hm : s.manager.isSome = true) :
    (s.UpdateStorage a b s1).ret = .returned () ∧
    ((s.UpdateStorage a b s1).svc.UpdateStorage a b s2).ret = .returned () ∧
    ((s.UpdateStorage a b s1).svc.UpdateStorage a b s2).svc.stored a b =
      some (match s.stored a b with
        | none => s1.Update s2
        | some old => (old.Update s1).Update s2) := by
  obtain ⟨m, l, hm, hl⟩ := stateService.fields_of_manager hinv hm
  obtain ⟨hret, hsvc⟩ := stateService.UpdateStorage_started s a b s1 m l hm hl
  have hm1 : (s.UpdateStorage a b s1).svc.manager = some (m.PutStorage a b
      (match m.GetStorage a b with
       | none => s1
       | some old => old.Update s1)) := by rw [hsvc]
  have hl1 : (s.UpdateStorage a b s1).svc.logger = some l := by rw [hsvc]; exact hl
  obtain ⟨hret2, hsvc2⟩ :=
    stateService.UpdateStorage_started (s.UpdateStorage a b s1).svc a b s2 _ l hm1 hl1
  refine ⟨hret, hret2, ?_⟩
  rw [hsvc2]
  cases hg : m.GetStorage a b <;>
    simp [stateService.stored, hm, hg, state.Manager.GetStorage_PutStorage]

/-- Witness of C3 (amended): the started service holding `old` at (0xa, 7). -/
theorem stateService.UpdateStorage_twice_witness :
    sample.stateWithOld.Inv ∧ sample.stateWithOld.manager.isSome = true ∧
    ((sample.stateWithOld.UpdateStorage "0xa" 7 sample.s1).svc.UpdateStorage "0xa" 7
        sample.s2).svc.stored "0xa" 7 =
      some (match sample.stateWithOld.stored "0xa" 7 with
        | none => sample.s1.Update sample.s2
        | some old => (old.Update sample.s1).Update sample.s2) :=
  ⟨by decide, by decide,
    (stateService.UpdateStorage_twice sample.stateWithOld "0xa" 7 sample.s1 sample.s2
      (by decide) (by decide)).2.2⟩

/-- C4: on a started service, whatever the store holds, StoreStorage(a,b,st) returns and
the GetStorage(a,b) that follows returns exactly st. -/
theorem stateService.GetStorage_StoreStorage (s : stateService) (a : String) (b : Nat)
    (st : state.ContractStorage) (hinv : s.Inv) (hm : s.manager.isSome = true) :
    (s.StoreStorage a b st).ret = .returned () ∧
    ((s.StoreStorage a b st).svc.GetStorage a b).ret = .returned (some st) := by
  obtain ⟨m, l, hm, hl⟩ := stateService.fields_of_manager hinv hm
  obtain ⟨running, manager, logger, wg⟩ := s
  simp only at hm hl
  subst hm hl
  simp [stateService.StoreStorage, stateService.GetStorage, stateService.wgAdd,
    stateService.wgDone, state.Manager.GetStorage_PutStorage]

/-- Witness of C4: the service that already holds `old` at (0xa, 7). -/
theorem stateService.GetStorage_StoreStorage_witness :
    sample.stateWithOld.Inv ∧ sample.stateWithOld.manager.isSome = true ∧
    ((sample.stateWithOld.StoreStorage "0xa" 7 sample.s2).svc.GetStorage "0xa" 7).ret =
      .returned (some sample.s2) :=
  ⟨by decide, by decide,
    (stateService.GetStorage_StoreStorage sample.stateWithOld "0xa" 7 sample.s2
      (by decide) (by decide)).2⟩

/-! ## Life cycle: `Run` and `Close` -/

/-- `Close`, when it returns, has cleared `running` and changed nothing else. -/
theorem abiService.abi_Close_svc (a : abiService) (h : a.Close.ret = .returned ()) :
    a.Close.svc = { a with running := false } := by
  obtain ⟨running, manager, logger, wg⟩ := a
  cases running <;> cases logger <;> simp_all [abiService.Close]
  split <;> simp_all

/-- `Close`, when it returns, has cleared `running` and changed nothing else. -/
theorem stateService.Close_svc (s : stateService) (h : s.Close.ret = .returned ()) :
    s.Close.svc = { s with running := false } := by
  obtain ⟨running, manager, logger, wg⟩ := s
  cases running <;> cases logger <;> simp_all [stateService.Close]
  split <;> simp_all

/-- `Close` returns only on a service that has a logger. -/
theorem abiService.abi_logger_of_Close (a : abiService) (h : a.Close.ret = .returned ()) :
    a.logger.isSome = true := by
  obtain ⟨running, manager, logger, wg⟩ := a
  cases running <;> cases logger <;> simp_all [abiService.Close]

/-- `Close` returns only on a service that has a logger. -/
theorem stateService.logger_of_Close (s : stateService) (h : s.Close.ret = .returned ()) :
    s.logger.isSome = true := by
  obtain ⟨running, manager, logger, wg⟩ := s
  cases running <;> cases logger <;> simp_all [stateService.Close]

/-- `StoreABI` neither reads nor writes `running`. -/
theorem abiService.StoreABI_stopped (a : abiService) (addr : String) (v : abi.Abi) :
    ({ a with running := false } : abiService).StoreABI addr v = abiService.stopped (a.StoreABI addr v) := by
  obtain ⟨running, manager, logger, wg⟩ := a
  cases logger <;> cases manager <;>
    simp [abiService.StoreABI, abiService.stopped, abiService.wgAdd, abiService.wgDone]

/-- `GetABI` neither reads nor writes `running`. -/
theorem abiService.GetABI_stopped (a : abiService) (addr : String) :
    ({ a with running := false } : abiService).GetABI addr = abiService.stopped (a.GetABI addr) := by
  obtain ⟨running, manager, logger, wg⟩ := a
  cases logger <;> cases manager <;>
    simp [abiService.GetABI, abiService.stopped, abiService.wgAdd, abiService.wgDone]

/-- `StoreCode` neither reads nor writes `running`. -/
theorem stateService.StoreCode_stopped (s : stateService) (addr : String)
    (c : state.ContractCode) :
    ({ s with running := false } : stateService).StoreCode addr c =
      stateService.stopped (s.StoreCode addr c) := by
  obtain ⟨running, manager, logger, wg⟩ := s
  cases logger <;> cases manager <;>
    simp [stateService.StoreCode, stateService.stopped, stateService.wgAdd,
      stateService.wgDone]

/-- `GetCode` neither reads nor writes `running`. -/
theorem stateService.GetCode_stopped (s : stateService) (addr : String) :
    ({ s with running := false } : stateService).GetCode addr = stateService.stopped (s.GetCode addr) := by
  obtain ⟨running, manager, logger, wg⟩ := s
  cases logger <;> cases manager <;>
    simp [stateService.GetCode, stateService.stopped, stateService.wgAdd, stateService.wgDone]

/-- `StoreStorage` neither reads nor writes `running`. -/
theorem stateService.StoreStorage_stopped (s : stateService) (addr : String) (b : Nat)
    (st : state.ContractStorage) :
    ({ s with running := false } : stateService).StoreStorage addr b st =
      stateService.stopped (s.StoreStorage addr b st) := by
  obtain ⟨running, manager, logger, wg⟩ := s
  cases logger <;> cases manager <;>
    simp [stateService.StoreStorage, stateService.stopped, stateService.wgAdd,
      stateService.wgDone]

/-- `GetStorage` neither reads nor writes `running`. -/
theorem stateService.GetStorage_stopped (s : stateService) (addr : String) (b : Nat) :
    ({ s with running := false } : stateService).GetStorage addr b =
      stateService.stopped (s.GetStorage addr b) := by
  obtain ⟨running, manager, logger, wg⟩ := s
  cases logger <;> cases manager <;>
    simp [stateService.GetStorage, stateService.stopped, stateService.wgAdd,
      stateService.wgDone]

/-- `UpdateStorage` neither reads nor writes `running`. -/
theorem stateService.UpdateStorage_stopped (s : stateService) (addr : String) (b : Nat)
    (st : state.ContractStorage) :
    ({ s with running := false } : stateService).UpdateStorage addr b st =
      stateService.stopped (s.UpdateStorage addr b st) := by
  obtain ⟨running, manager, logger, wg⟩ := s
  cases logger with
  | none =>
    simp [stateService.UpdateStorage, stateService.stopped, stateService.wgAdd,
      stateService.wgDone]
  | some l =>
    cases manager with
    | none =>
      simp [stateService.UpdateStorage, stateService.stopped, stateService.wgAdd,
        stateService.wgDone]
    | some m =>
      cases hg : m.GetStorage addr b <;>
        simp [stateService.UpdateStorage, stateService.stopped, stateService.wgAdd,
          stateService.wgDone, hg]

/-- On a started service `StoreABI` returns. -/
theorem abiService.StoreABI_ret (a : abiService) (addr : String) (v : abi.Abi)
    (hinv : a.Inv) (hl : a.logger.isSome = true) : (a.StoreABI addr v).ret = .returned () := by
  obtain ⟨running, manager, logger, wg⟩ := a
  cases logger <;> cases manager <;>
    simp_all [abiService.Inv, abiService.StoreABI, abiService.wgAdd, abiService.wgDone]

/-- On a started service `GetABI` returns what the manager holds. -/
theorem abiService.GetABI_ret (a : abiService) (addr : String)
    (hinv : a.Inv) (hl : a.logger.isSome = true) :
    (a.GetABI addr).ret = .returned (a.manager.bind fun m => m.GetABI addr) := by
  obtain ⟨running, manager, logger, wg⟩ := a
  cases logger <;> cases manager <;>
    simp_all [abiService.Inv, abiService.GetABI, abiService.wgAdd, abiService.wgDone]

/-- On a started service `StoreCode` returns. -/
theorem stateService.StoreCode_ret (s : stateService) (addr : String) (c : state.ContractCode)
    (hinv : s.Inv) (hl : s.logger.isSome = true) : (s.StoreCode addr c).ret = .returned () := by
  obtain ⟨running, manager, logger, wg⟩ := s
  cases logger <;> cases manager <;>
    simp_all [stateService.Inv, stateService.StoreCode, stateService.wgAdd, stateService.wgDone]

/-- On a started service `GetCode` returns what the manager holds. -/
theorem stateService.GetCode_ret (s : stateService) (addr : String)
    (hinv : s.Inv) (hl : s.logger.isSome = true) :
    (s.GetCode addr).ret = .returned (s.manager.bind fun m => m.GetCode addr) := by
  obtain ⟨running, manager, logger, wg⟩ := s
  cases logger <;> cases manager <;>
    simp_all [stateService.Inv, stateService.GetCode, stateService.wgAdd, stateService.wgDone]

/-- On a started service `StoreStorage` returns. -/
theorem stateService.StoreStorage_ret (s : stateService) (addr : String) (b : Nat)
    (st : state.ContractStorage) (hinv : s.Inv) (hl : s.logger.isSome = true) :
    (s.StoreStorage addr b st).ret = .returned () := by
  obtain ⟨running, manager, logger, wg⟩ := s
  cases logger <;> cases manager <;>
    simp_all [stateService.Inv, stateService.StoreStorage, stateService.wgAdd,
      stateService.wgDone]

/-- On a started service `GetStorage` returns the snapshot stored at the key. -/
theorem stateService.GetStorage_ret (s : stateService) (addr : String) (b : Nat)
    (hinv : s.Inv) (hl : s.logger.isSome = true) :
    (s.GetStorage addr b).ret = .returned (s.stored addr b) := by
  obtain ⟨running, manager, logger, wg⟩ := s
  cases logger <;> cases manager <;>
    simp_all [stateService.Inv, stateService.GetStorage, stateService.wgAdd,
      stateService.wgDone, stateService.stored]

/-- On a started service `UpdateStorage` returns. -/
theorem stateService.UpdateStorage_ret (s : stateService) (addr : String) (b : Nat)
    (st : state.ContractStorage) (hinv : s.Inv) (hl : s.logger.isSome = true) :
    (s.UpdateStorage addr b st).ret = .returned () := by
  obtain ⟨m, l, hm, hl⟩ := stateService.fields_of_manager hinv (by rw [hinv.2]; exact hl)
  exact (stateService.UpdateStorage_started s addr b st m l hm hl).1

/-- Counterexample to C5: after `Run`, one write and a `Close` that has returned, both
services are stopped and still serve: `GetABI` and `GetStorage` return what is stored,
`StoreABI` and `UpdateStorage` return and change the store. -/
theorem Close_then_operations_counterexample :
    sample.abiClosed.ret = .returned () ∧ sample.abiClosed.svc.running = false ∧
    (sample.abiClosed.svc.GetABI "0xa").ret = .returned (some sample.abi1) ∧
    (sample.abiClosed.svc.StoreABI "0xb" sample.abi1).ret = .returned () ∧
    (sample.abiClosed.svc.StoreABI "0xb" sample.abi1).svc.manager ≠
      sample.abiClosed.svc.manager ∧
    sample.stateClosed.ret = .returned () ∧ sample.stateClosed.svc.running = false ∧
    (sample.stateClosed.svc.GetStorage "0xa" 7).ret = .returned (some sample.old) ∧
    (sample.stateClosed.svc.UpdateStorage "0xa" 7 sample.s2).ret = .returned () ∧
    (sample.stateClosed.svc.UpdateStorage "0xa" 7 sample.s2).svc.manager ≠
      sample.stateClosed.svc.manager := by
  decide

/-- C5 (amended): when Close has returned on a service, it has cleared the running flag
and changed nothing else, and every later operation (StoreABI, GetABI, StoreCode, GetCode,
StoreStorage, GetStorage, UpdateStorage) is served: it returns, a read with the stored
data, and it runs as it does on the service before Close, with the same return value, the
same events and the same effect on the manager and the counter; the only difference is
the cleared flag, which no operation reads. -/
theorem operations_after_Close (a : abiService) (s : stateService)
    (hainv : a.Inv) (hsinv : s.Inv)
    (ha : a.Close.ret = .returned ()) (hs : s.Close.ret = .returned ()) :
    (a.Close.svc.running = false ∧
      (∀ addr v, a.Close.svc.StoreABI addr v = abiService.stopped (a.StoreABI addr v) ∧
        (a.Close.svc.StoreABI addr v).ret = .returned ()) ∧
      (∀ addr, a.Close.svc.GetABI addr = abiService.stopped (a.GetABI addr) ∧
        (a.Close.svc.GetABI addr).ret = .returned (a.manager.bind fun m => m.GetABI addr))) ∧
    (s.Close.svc.running = false ∧
      (∀ addr c, s.Close.svc.StoreCode addr c = stateService.stopped (s.StoreCode addr c) ∧
        (s.Close.svc.StoreCode addr c).ret = .returned ()) ∧
      (∀ addr, s.Close.svc.GetCode addr = stateService.stopped (s.GetCode addr) ∧
        (s.Close.svc.GetCode addr).ret = .returned (s.manager.bind fun m => m.GetCode addr)) ∧
      (∀ addr b st,
        s.Close.svc.StoreStorage addr b st = stateService.stopped (s.StoreStorage addr b st) ∧
        (s.Close.svc.StoreStorage addr b st).ret = .returned ()) ∧
      (∀ addr b, s.Close.svc.GetStorage addr b = stateService.stopped (s.GetStorage addr b) ∧
        (s.Close.svc.GetStorage addr b).ret = .returned (s.stored addr b)) ∧
      (∀ addr b st,
        s.Close.svc.UpdateStorage addr b st = stateService.stopped (s.UpdateStorage addr b st) ∧
        (s.Close.svc.UpdateStorage addr b st).ret = .returned ())) := by
  have hal := abiService.abi_logger_of_Close a ha
  have hsl := stateService.logger_of_Close s hs
  rw [abiService.abi_Close_svc a ha, stateService.Close_svc s hs]
  refine ⟨⟨rfl, fun addr v => ⟨abiService.StoreABI_stopped a addr v, ?_⟩,
      fun addr => ⟨abiService.GetABI_stopped a addr, ?_⟩⟩, rfl,
    fun addr c => ⟨stateService.StoreCode_stopped s addr c, ?_⟩,
    fun addr => ⟨stateService.GetCode_stopped s addr, ?_⟩,
    fun addr b st => ⟨stateService.StoreStorage_stopped s addr b st, ?_⟩,
    fun addr b => ⟨stateService.GetStorage_stopped s addr b, ?_⟩,
    fun addr b st => ⟨stateService.UpdateStorage_stopped s addr b st, ?_⟩⟩
  · rw [abiService.StoreABI_stopped]; exact abiService.StoreABI_ret a addr v hainv hal
  · rw [abiService.GetABI_stopped]; exact abiService.GetABI_ret a addr hainv hal
  · rw [stateService.StoreCode_stopped]; exact stateService.StoreCode_ret s addr c hsinv hsl
  · rw [stateService.GetCode_stopped]; exact stateService.GetCode_ret s addr hsinv hsl
  · rw [stateService.StoreStorage_stopped]
    exact stateService.StoreStorage_ret s addr b st hsinv hsl
  · rw [stateService.GetStorage_stopped]; exact stateService.GetStorage_ret s addr b hsinv hsl
  · rw [stateService.UpdateStorage_stopped]
    exact stateService.UpdateStorage_ret s addr b st hsinv hsl

/-- Witness of C5 (amended): the two started sample services; on the closed state service
`GetStorage` still returns the stored snapshot. -/
theorem operations_after_Close_witness :
    sample.abiStarted.Inv ∧ sample.stateWithOld.Inv ∧
    sample.abiStarted.Close.ret = .returned () ∧
    sample.stateWithOld.Close.ret = .returned () ∧
    (sample.stateWithOld.Close.svc.GetStorage "0xa" 7).ret =
      .returned (sample.stateWithOld.stored "0xa" 7) :=
  ⟨by decide, by decide, by decide, by decide,
    ((operations_after_Close sample.abiStarted sample.stateWithOld (by decide) (by decide)
      (by decide) (by decide)).2.2.2.2.2.1 "0xa" 7).2⟩

/-- C7: Run called twice in succession returns both times; the second call leaves the
service exactly as the first call left it (running, the same manager) and opens no
database.  For the ABI service the starting state satisfies the invariant of the
fields. -/
theorem Run_twice (env1 env2 : Env) (a : abiService) (s : stateService) (ha : a.Inv) :
    ((a.Run env1).ret = .returned () ∧ ((a.Run env1).svc.Run env2).ret = .returned () ∧
      (a.Run env1).svc.running = true ∧
      ((a.Run env1).svc.Run env2).svc = (a.Run env1).svc ∧
      (∀ path, Event.openDb path ∉ ((a.Run env1).svc.Run env2).events)) ∧
    ((s.Run env1).ret = .returned () ∧ ((s.Run env1).svc.Run env2).ret = .returned () ∧
      (s.Run env1).svc.running = true ∧
      ((s.Run env1).svc.Run env2).svc = (s.Run env1).svc ∧
      (∀ path, Event.openDb path ∉ ((s.Run env1).svc.Run env2).events)) := by
  constructor
  · obtain ⟨running, manager, logger, wg⟩ := a
    cases running <;> cases logger <;>
      simp_all [abiService.Inv, abiService.Run, log.Logger.Warn]
  · obtain ⟨running, manager, logger, wg⟩ := s
    cases running <;> simp [stateService.Run, log.Logger.Warn]

/-- Witness of C7: the zero values of both services. -/
theorem Run_twice_witness :
    abiService.zero.Inv ∧
    ((abiService.zero.Run sample.env).svc.Run sample.env).svc =
      (abiService.zero.Run sample.env).svc :=
  ⟨by decide,
    (Run_twice sample.env sample.env abiService.zero stateService.zero (by decide)).1.2.2.2.1⟩

/-- On a stopped service that has a logger, as every service that was started has,
`Close` returns, changes nothing and writes one warning. -/
theorem abiService.abi_Close_stopped (a : abiService) (l : log.Logger)
    (hr : a.running = false) (hl : a.logger = some l) :
    a.Close.ret = .returned () ∧ a.Close.svc = a ∧
    a.Close.events = [l.Warn "Service is not running"] := by
  obtain ⟨running, manager, logger, wg⟩ := a
  simp only at hr hl
  subst hr hl
  simp [abiService.Close]

/-- On a stopped service that has a logger, as every service that was started has,
`Close` returns, changes nothing and writes one warning. -/
theorem stateService.Close_stopped (s : stateService) (l : log.Logger)
    (hr : s.running = false) (hl : s.logger = some l) :
    s.Close.ret = .returned () ∧ s.Close.svc = s ∧
    s.Close.events = [l.Warn "Service is not running"] := by
  obtain ⟨running, manager, logger, wg⟩ := s
  simp only at hr hl
  subst hr hl
  simp [stateService.Close]

/-- C8 at the failing input: on a service that was never started, whose logger is still
nil, Close does not return: the call of Warn on the nil logger panics. -/
theorem Close_never_started_panics :
    abiService.zero.running = false ∧ abiService.zero.Close.ret = .panicked ∧
    stateService.zero.running = false ∧ stateService.zero.Close.ret = .panicked := by
  decide

/-! ## Draining: `Close` against operations in flight -/

/-- A pending invocation found by number is one of the pending ones. -/
theorem drain.mem_of_phase {s : drain.State} {c : Nat} {ph : drain.Phase}
    (h : s.phase? c = some ph) : ∃ p ∈ s.closes, p.id = c ∧ p.phase = ph := by
  unfold drain.State.phase? at h
  cases hf : s.closes.find? (fun p => decide (p.id = c)) with
  | none => simp [hf] at h
  | some p =>
    simp only [hf, Option.map_some', Option.some.injEq] at h
    exact ⟨p, List.mem_of_find?_eq_some hf, by simpa using List.find?_some hf, h⟩

/-- A pending invocation after `setPhase` comes from one before it, with the same number
and either unchanged or in the new phase. -/
theorem drain.mem_setPhase {s : drain.State} {c : Nat} {ph : drain.Phase} {p : drain.Pending}
    (hp : p ∈ (s.setPhase c ph).closes) :
    ∃ q ∈ s.closes, p.id = q.id ∧ (p = q ∨ p.phase = ph) := by
  simp only [drain.State.setPhase, List.mem_map] at hp
  obtain ⟨q, hq, rfl⟩ := hp
  refine ⟨q, hq, ?_, ?_⟩
  · split <;> rfl
  · by_cases h : q.id = c <;> simp [h]

/-- A pending invocation after `drop` was pending before. -/
theorem drain.mem_drop {s : drain.State} {c : Nat} {p : drain.Pending}
    (hp : p ∈ (s.drop c).closes) : p ∈ s.closes := by
  simp only [drain.State.drop, List.mem_filter] at hp
  exact hp.1

/-- Every step keeps the bookkeeping fitting the fields; in particular the counter of the
wait group stays the number of operations in flight. -/
theorem drain.step_WF {s t : drain.State} {l : drain.Label}
    (h : drain.step s l = some t) (hwf : s.WF) : t.WF := by
  obtain ⟨h1, h2, h3⟩ := hwf
  cases l with
  | enter op =>
    by_cases hmem : op ∈ s.entered
    · simp [drain.step, hmem] at h
    · simp only [drain.step, hmem, if_false, Option.some.injEq] at h
      subst h
      refine ⟨by simp [h1], ?_, h3⟩
      intro o ho
      rcases List.mem_cons.mp ho with rfl | ho
      · exact List.mem_cons_self _ _
      · exact List.mem_cons_of_mem _ (h2 o ho)
  | exit op =>
    by_cases hmem : op ∈ s.inflight
    · simp only [drain.step, hmem, if_true, Option.some.injEq] at h
      subst h
      exact ⟨by simp [h1, List.length_erase_of_mem hmem],
        fun o ho => h2 o (List.mem_of_mem_erase ho), h3⟩
    · simp [drain.step, hmem] at h
  | closeInvoke c =>
    by_cases hc : c ∈ s.invoked
    · simp [drain.step, hc] at h
    · cases hl : s.logger with
      | none =>
        simp only [drain.step, hc, hl, if_false, Option.some.injEq] at h
        subst h
        exact ⟨h1, h2, fun p hp => List.mem_cons_of_mem _ (h3 p hp)⟩
      | some lg =>
        cases hr : s.running <;>
          · simp only [drain.step, hc, hl, hr] at h
            simp at h
            subst h
            refine ⟨h1, h2, fun p hp => ?_⟩
            rcases List.mem_cons.mp hp with rfl | hp
            · exact List.mem_cons_self _ _
            · exact List.mem_cons_of_mem _ (h3 p hp)
  | closeClear c =>
    cases hph : s.phase? c with
    | none => simp [drain.step, hph] at h
    | some ph =>
      cases ph <;> simp only [drain.step, hph, Option.some.injEq] at h <;> try contradiction
      subst h
      refine ⟨h1, h2, fun p hp => ?_⟩
      obtain ⟨q, hq, hid, _⟩ := drain.mem_setPhase hp
      rw [hid]
      exact h3 q hq
  | waitReturn c =>
    cases hph : s.phase? c with
    | none => simp [drain.step, hph] at h
    | some ph =>
      cases ph <;> simp only [drain.step, hph] at h <;> try contradiction
      by_cases hz : s.wg = 0
      · simp only [hz, if_true, Option.some.injEq] at h
        subst h
        refine ⟨h1, h2, fun p hp => ?_⟩
        obtain ⟨q, hq, hid, _⟩ := drain.mem_setPhase hp
        rw [hid]
        exact h3 q hq
      · simp [hz] at h
  | closeReturn c =>
    cases hph : s.phase? c with
    | none => simp [drain.step, hph] at h
    | some ph =>
      cases ph <;> simp only [drain.step, hph, Option.some.injEq] at h <;> try contradiction
      all_goals
        subst h
        exact ⟨h1, h2, fun p hp => h3 p (drain.mem_drop hp)⟩

/-- Every interleaving keeps the bookkeeping fitting the fields. -/
theorem drain.run_WF (ls : List drain.Label) :
    ∀ {s t : drain.State}, drain.run s ls = some t → s.WF → t.WF := by
  induction ls with
  | nil =>
    intro s t h hwf
    simp only [drain.run, Option.some.injEq] at h
    subst h
    exact hwf
  | cons l ls ih =>
    intro s t h hwf
    cases hs : drain.step s l with
    | none => simp [drain.run, hs] at h
    | some u =>
      simp only [drain.run, hs, Option.some_bind] at h
      exact ih h (drain.step_WF hs hwf)

/-- The invocation of `Close` on a running service establishes `Safe` for the operations
in flight at that moment. -/
theorem drain.closeInvoke_Safe {s t : drain.State} {c : Nat}
    (h : drain.step s (.closeInvoke c) = some t) (hwf : s.WF) (hr : s.running = true) :
    t.Safe c s.inflight := by
  obtain ⟨_, h2, h3⟩ := hwf
  by_cases hc : c ∈ s.invoked
  · simp [drain.step, hc] at h
  · have hfresh : ∀ p ∈ s.closes, p.id ≠ c := fun p hp hid => hc (hid ▸ h3 p hp)
    cases hl : s.logger with
    | none =>
      simp only [drain.step, hc, hl, if_false, Option.some.injEq] at h
      subst h
      exact ⟨List.mem_cons_self _ _, h2, fun p hp hid => absurd hid (hfresh p hp)⟩
    | some lg =>
      simp only [drain.step, hc, hl, hr] at h
      simp at h
      subst h
      refine ⟨List.mem_cons_self _ _, h2, fun p hp hid => ?_⟩
      rcases List.mem_cons.mp hp with rfl | hp
      · exact ⟨by simp, by simp⟩
      · exact absurd hid (hfresh p hp)

/-- Every step keeps `Safe`. -/
theorem drain.step_Safe {s t : drain.State} {l : drain.Label} {c : Nat} {B : List Nat}
    (h : drain.step s l = some t) (hwf : s.WF) (hsafe : s.Safe c B) : t.Safe c B := by
  obtain ⟨h1, _, _⟩ := hwf
  obtain ⟨g1, g2, g3⟩ := hsafe
  cases l with
  | enter op =>
    by_cases hmem : op ∈ s.entered
    · simp [drain.step, hmem] at h
    · simp only [drain.step, hmem, if_false, Option.some.injEq] at h
      subst h
      refine ⟨g1, fun o ho => List.mem_cons_of_mem _ (g2 o ho), fun p hp hid => ?_⟩
      refine ⟨(g3 p hp hid).1, fun hw o ho hin => ?_⟩
      rcases List.mem_cons.mp hin with rfl | hin
      · exact hmem (g2 o ho)
      · exact (g3 p hp hid).2 hw o ho hin
  | exit op =>
    by_cases hmem : op ∈ s.inflight
    · simp only [drain.step, hmem, if_true, Option.some.injEq] at h
      subst h
      exact ⟨g1, g2, fun p hp hid => ⟨(g3 p hp hid).1,
        fun hw o ho hin => (g3 p hp hid).2 hw o ho (List.mem_of_mem_erase hin)⟩⟩
    · simp [drain.step, hmem] at h
  | closeInvoke d =>
    by_cases hd : d ∈ s.invoked
    · simp [drain.step, hd] at h
    · have hne : d ≠ c := fun e => hd (e ▸ g1)
      cases hl : s.logger with
      | none =>
        simp only [drain.step, hd, hl, if_false, Option.some.injEq] at h
        subst h
        exact ⟨List.mem_cons_of_mem _ g1, g2, g3⟩
      | some lg =>
        cases hr : s.running <;>
          · simp only [drain.step, hd, hl, hr] at h
            simp at h
            subst h
            refine ⟨List.mem_cons_of_mem _ g1, g2, fun p hp hid => ?_⟩
            rcases List.mem_cons.mp hp with rfl | hp
            · exact absurd hid hne
            · exact g3 p hp hid
  | closeClear d =>
    cases hph : s.phase? d with
    | none => simp [drain.step, hph] at h
    | some ph =>
      cases ph <;> simp only [drain.step, hph, Option.some.injEq] at h <;> try contradiction
      subst h
      refine ⟨g1, g2, fun p hp hid => ?_⟩
      obtain ⟨q, hq, hidq, hcase⟩ := drain.mem_setPhase hp
      rcases hcase with rfl | hnew
      · exact g3 p hq hid
      · exact ⟨by simp [hnew], fun hw => by simp [hnew] at hw⟩
  | waitReturn d =>
    cases hph : s.phase? d with
    | none => simp [drain.step, hph] at h
    | some ph =>
      cases ph <;> simp only [drain.step, hph] at h <;> try contradiction
      by_cases hz : s.wg = 0
      · simp only [hz, if_true, Option.some.injEq] at h
        subst h
        have hnil : s.inflight = [] := List.length_eq_zero.mp (by omega)
        refine ⟨g1, g2, fun p hp hid => ?_⟩
        obtain ⟨q, hq, hidq, hcase⟩ := drain.mem_setPhase hp
        rcases hcase with rfl | hnew
        · exact g3 p hq hid
        · exact ⟨by simp [hnew], fun _ o _ hin => by
            simp [drain.State.setPhase, hnil] at hin⟩
      · simp [hz] at h
  | closeReturn d =>
    cases hph : s.phase? d with
    | none => simp [drain.step, hph] at h
    | some ph =>
      cases ph <;> simp only [drain.step, hph, Option.some.injEq] at h <;> try contradiction
      all_goals
        subst h
        exact ⟨g1, g2, fun p hp hid => g3 p (drain.mem_drop hp) hid⟩

/-- Every interleaving keeps `Safe`. -/
theorem drain.run_Safe (ls : List drain.Label) {c : Nat} {B : List Nat} :
    ∀ {s t : drain.State}, drain.run s ls = some t → s.WF → s.Safe c B → t.Safe c B := by
  induction ls with
  | nil =>
    intro s t h _ hsafe
    simp only [drain.run, Option.some.injEq] at h
    subst h
    exact hsafe
  | cons l ls ih =>
    intro s t h hwf hsafe
    cases hs : drain.step s l with
    | none => simp [drain.run, hs] at h
    | some u =>
      simp only [drain.run, hs, Option.some_bind] at h
      exact ih h (drain.step_WF hs hwf) (drain.step_Safe hs hwf hsafe)

/-- The machine's `Close`, run alone on the fields of a service, ends as the embedded
`Close` of both services does and leaves the same `running`, `logger` and `wg`: it panics
on a nil logger, returns at once on a stopped service, returns after the wait when the
counter is zero and stays in `wg.Wait()` otherwise. -/
theorem drain.closeSolo_Close (a : abiService) (s : stateService) :
    ((drain.closeSolo (drain.ofService a.running a.logger a.wg) 0).1 = a.Close.ret ∧
      (drain.closeSolo (drain.ofService a.running a.logger a.wg) 0).2.running =
        a.Close.svc.running ∧
      (drain.closeSolo (drain.ofService a.running a.logger a.wg) 0).2.logger =
        a.Close.svc.logger ∧
      (drain.closeSolo (drain.ofService a.running a.logger a.wg) 0).2.wg = a.Close.svc.wg) ∧
    ((drain.closeSolo (drain.ofService s.running s.logger s.wg) 0).1 = s.Close.ret ∧
      (drain.closeSolo (drain.ofService s.running s.logger s.wg) 0).2.running =
        s.Close.svc.running ∧
      (drain.closeSolo (drain.ofService s.running s.logger s.wg) 0).2.logger =
        s.Close.svc.logger ∧
      (drain.closeSolo (drain.ofService s.running s.logger s.wg) 0).2.wg = s.Close.svc.wg) := by
  constructor
  · obtain ⟨running, manager, logger, wg⟩ := a
    cases running <;> cases logger <;>
      simp [drain.closeSolo, drain.ofService, drain.step, drain.State.phase?,
        drain.State.drop, drain.State.setPhase, abiService.Close]
    by_cases hz : wg = 0 <;>
      simp [hz, drain.step, drain.State.phase?, drain.State.drop, drain.State.setPhase]
  · obtain ⟨running, manager, logger, wg⟩ := s
    cases running <;> cases logger <;>
      simp [drain.closeSolo, drain.ofService, drain.step, drain.State.phase?,
        drain.State.drop, drain.State.setPhase, stateService.Close]
    by_cases hz : wg = 0 <;>
      simp [hz, drain.step, drain.State.phase?, drain.State.drop, drain.State.setPhase]

/-- Counterexample to C6: on a started service, (1) `Close` 0 finds the service running,
its `wg.Wait()` returns at counter zero, operation 7 enters, and `Close` 0 returns with
the counter at 1; (2) after that `Close` 1 is invoked with operation 7 in flight, finds
the service not running and returns while operation 7, which entered before it was
invoked, is still in flight. -/
theorem drain.closeReturn_counterexample :
    (drain.run drain.started
        [.closeInvoke 0, .closeClear 0, .waitReturn 0, .enter 7, .closeReturn 0]).map
      (fun s => (s.wg, s.inflight, s.closes)) = some (1, [7], []) ∧
    (drain.run drain.started
        [.closeInvoke 0, .closeClear 0, .waitReturn 0, .enter 7, .closeReturn 0,
          .closeInvoke 1]).map
      (fun s => (s.wg, s.inflight, s.closes)) = some (1, [7], [⟨1, .leaving⟩]) ∧
    (drain.run drain.started
        [.closeInvoke 0, .closeClear 0, .waitReturn 0, .enter 7, .closeReturn 0,
          .closeInvoke 1, .closeReturn 1]).map
      (fun s => (s.wg, s.inflight, s.closes)) = some (1, [7], []) := by
  decide

/-- C6 (amended): take any interleaving of operation entries, operation exits and the
steps of Close invocations on one service, from a state whose counter is the number of
operations in flight.  If Close c is invoked when the service is running, then at the
step at which Close c returns no operation that was in flight when Close c was invoked is
still in flight: Close does not return before every operation that entered before it was
invoked has exited. -/
theorem drain.Close_returns_after_earlier_operations
    (s0 s1 s2 s t : drain.State) (pre post : List drain.Label) (c : Nat)
    (h0 : s0.WF)
    (hpre : drain.run s0 pre = some s1)
    (hrunning : s1.running = true)
    (hinvoke : drain.step s1 (.closeInvoke c) = some s2)
    (hpost : drain.run s2 post = some s)
    (hreturn : drain.step s (.closeReturn c) = some t) :
    ∀ op ∈ s1.inflight, op ∉ s.inflight := by
  have hwf1 : s1.WF := drain.run_WF pre hpre h0
  have hwf2 : s2.WF := drain.step_WF hinvoke hwf1
  have hsafe : s.Safe c s1.inflight :=
    drain.run_Safe post hpost hwf2 (drain.closeInvoke_Safe hinvoke hwf1 hrunning)
  cases hph : s.phase? c with
  | none => simp [drain.step, hph] at hreturn
  | some ph =>
    obtain ⟨p, hp, hid, hphase⟩ := drain.mem_of_phase hph
    obtain ⟨hnl, hw⟩ := hsafe.2.2 p hp hid
    cases ph with
    | leaving => exact absurd hphase hnl
    | checked => simp [drain.step, hph] at hreturn
    | waiting => simp [drain.step, hph] at hreturn
    | waited => exact hw hphase

/-- Witness of C6 (amended): operation 1 enters, Close 0 is invoked on the running
service and clears the flag, operation 1 exits, the wait returns, operation 2 enters, and
Close 0 returns: operation 1 is not in flight then, although the counter is 1. -/
theorem drain.Close_returns_after_earlier_operations_witness :
    drain.started.WF ∧
    drain.run drain.started [.enter 1] = some drain.atInvoke ∧
    drain.atInvoke.running = true ∧
    drain.step drain.atInvoke (.closeInvoke 0) = some drain.afterInvoke ∧
    drain.run drain.afterInvoke [.closeClear 0, .exit 1, .waitReturn 0, .enter 2] =
      some drain.atReturn ∧
    drain.step drain.atReturn (.closeReturn 0) = some (drain.atReturn.drop 0) ∧
    drain.atReturn.wg = 1 ∧
    1 ∉ drain.atReturn.inflight :=
  ⟨by decide, by decide, by decide, by decide, by decide, by decide, by decide,
    drain.Close_returns_after_earlier_operations drain.started drain.atInvoke
      drain.afterInvoke drain.atReturn (drain.atReturn.drop 0) [.enter 1]
      [.closeClear 0, .exit 1, .waitReturn 0, .enter 2] 0
      (by decide) (by decide) (by decide) (by decide) (by decide) (by decide)
      1 (by decide)⟩

/-! ## The remote chain client -/

/-- C9: Call hands exactly one request to the transport, for the method starknet_call
with the parameters (functionCall, hash) in that order; the CallData of the function call
sent is the non-nil empty slice when the CallData given has length zero (nil or empty),
and the CallData given otherwise; the other fields are sent as given. -/
theorem rpc.Client.Call_request {D : rpc.Decl} (ec : rpc.Client D) (hash : String)
    (call : rpc.FunctionCall D) :
    (ec.Call hash call).requests =
      [⟨"starknet_call",
        [.functionCall
          ⟨call.rest, if rpc.len call.CallData = 0 then some [] else call.CallData⟩,
         .string hash]⟩] := by
  unfold rpc.Client.Call rpc.Client.execute rpc.Transport.CallContext
  by_cases h : rpc.len call.CallData = 0
  · simp only [h, if_true]
    cases ec.ptr.reply _ with
    | error e => rfl
    | ok raw =>
      simp only [Except.bind]
      cases ec.ptr.decodeStrings raw <;> rfl
  · simp only [h, if_false]
    cases ec.ptr.reply _ with
    | error e => rfl
    | ok raw =>
      simp only [Except.bind]
      cases ec.ptr.decodeStrings raw <;> rfl

/-- Counterexample to C10: for the block number 2^64 the request carries the unsigned
integer 0 as its first parameter, not 2^64. -/
theorem rpc.Client.GetBlockByNumber_counterexample :
    (sample.client.GetBlockByNumber (some (2 ^ 64)) "full").requests.map
        (fun r => (r.method, r.params.head?.bind rpc.Arg.toUint64?)) =
      [("starknet_getBlockByNumber", some 0)] ∧
    ((0 : Nat) : Int) ≠ 2 ^ 64 := by
  decide

/-- C10 (amended): for every block number n with 0 ≤ n < 2^64 and every scope,
GetBlockByNumber hands exactly one request to the transport, for the method
starknet_getBlockByNumber with the parameters (n, scope), the first one an unsigned
integer equal to n. -/
theorem rpc.Client.GetBlockByNumber_request {D : rpc.Decl} (ec : rpc.Client D) (n : Int)
    (requestedScope : D.RequestedScope) (h0 : 0 ≤ n) (h64 : n < 2 ^ 64) :
    (ec.GetBlockByNumber (some n) requestedScope).requests =
      [⟨"starknet_getBlockByNumber", [.uint64 n.toNat, .requestedScope requestedScope]⟩] ∧
    (n.toNat : Int) = n := by
  have hn : rpc.bigUint64 n = n.toNat := by
    unfold rpc.bigUint64
    have : n.natAbs = n.toNat := by omega
    rw [this]
    apply Nat.mod_eq_of_lt
    omega
  refine ⟨?_, Int.toNat_of_nonneg h0⟩
  unfold rpc.Client.GetBlockByNumber rpc.Transport.CallContext
  simp only [hn]
  cases (ec.ptr.reply _).bind ec.ptr.decodeBlockResponse <;> rfl

/-- Witness of C10 (amended): the block number 12345. -/
theorem rpc.Client.GetBlockByNumber_request_witness :
    (0 : Int) ≤ 12345 ∧ (12345 : Int) < 2 ^ 64 ∧
    ((12345 : Int).toNat : Int) = 12345 :=
  ⟨by decide, by decide,
    (rpc.Client.GetBlockByNumber_request sample.client 12345 "full" (by decide)
      (by decide)).2⟩

end Juno
